import Mathlib

/-!
Verification of the oboto repository against its design specification.

The repository has two components:

* `src/server/scripts/pty-bridge.py` — a pseudo-terminal bridge: it allocates
  a PTY pair, spawns a shell attached to the slave side and proxies bytes
  between its own stdin/stdout and the master descriptor.
* `plugins/poorman-alpha/solver.py` — a SymPy evaluator with a persistent
  newline-delimited JSON request/response mode.

Both are embedded shallowly below.  The OS environment (descriptor readiness,
read results, child liveness) is modelled as an explicit per-iteration event;
the bridge's observable behaviour is the list of write/flush/terminate/wait
actions it performs.  Bytes are modelled as natural numbers.
-/

namespace Oboto

namespace PtyBridge

/-- Fixed read chunk size used by both `os.read` calls (pty-bridge.py lines 49, 59). -/
def CHUNK : Nat := 4096

/-- The `select.select` timeout in seconds (pty-bridge.py line 44: `0.1`). -/
def selectTimeout : ℚ := 1 / 10

/-- Result of an `os.read` call: either a chunk of bytes (possibly empty,
meaning end of stream) or an `OSError`. -/
inductive ReadResult where
  | ok (d : List Nat)
  | err
deriving DecidableEq, Repr

/-- Environment input for one iteration of the proxy loop: what `p.poll()`,
`select.select` and the subsequent `os.read`/`os.write` calls would report.
The read fields are consulted only when the corresponding descriptor is ready;
the write-raises fields model `os.write` raising `OSError`. -/
structure Event where
  childAlive : Bool
  selectRaises : Bool
  stdinReady : Bool
  masterReady : Bool
  stdinRead : ReadResult
  masterRead : ReadResult
  masterWriteRaises : Bool
  stdoutWriteRaises : Bool
deriving DecidableEq, Repr

/-- Observable actions of the bridge process, in program order. -/
inductive Action where
  | writeMaster (d : List Nat)
  | writeStdout (d : List Nat)
  | flushStdout
  | termCall
  | waitCall
  | writeStderr
deriving DecidableEq, Repr

/-- How the proxy loop ended: the `while p.poll() is None` guard turned false,
a `break` fired, an exception escaped to the outer handler, or the supplied
event trace ran out while the loop was still running. -/
inductive ExitKind where
  | childDead
  | broke
  | exc
  | fuel
deriving DecidableEq, Repr

/-- Output of one loop iteration: the actions performed, the positive stdin
chunk forwarded to the master (if any), the positive master chunk forwarded to
stdout (if any), and how the iteration left the loop (`none` = keep looping). -/
structure StepOut where
  acts : List Action
  stdinChunk : Option (List Nat)
  masterChunk : Option (List Nat)
  exit : Option ExitKind
deriving DecidableEq, Repr

/-- The `if master in r` branch of the loop body (pty-bridge.py lines 57-65),
entered with the actions and stdin chunk already produced by the stdin branch.
A zero-length read or an `OSError` breaks out of the loop; a positive read is
written to stdout and the stream is flushed. -/
def stepMaster (e : Event) (a1 : List Action) (c1 : Option (List Nat)) : StepOut :=
  if e.masterReady then
    match e.masterRead with
    | ReadResult.err => ⟨a1, c1, none, some ExitKind.broke⟩
    | ReadResult.ok d =>
      if d = [] then ⟨a1, c1, none, some ExitKind.broke⟩
      else if e.stdoutWriteRaises then ⟨a1, c1, none, some ExitKind.broke⟩
      else ⟨a1 ++ [Action.writeStdout d, Action.flushStdout], c1, some d, none⟩
  else ⟨a1, c1, none, none⟩

/-- One iteration of the proxy loop (pty-bridge.py lines 43-65): the
`p.poll()` guard, the `select.select` call, then the stdin branch (lines
47-54) falling through to the master branch.  A `break` in the stdin branch
skips the master branch. -/
def step (e : Event) : StepOut :=
  if e.childAlive = false then ⟨[], none, none, some ExitKind.childDead⟩
  else if e.selectRaises then ⟨[], none, none, some ExitKind.exc⟩
  else if e.stdinReady then
    match e.stdinRead with
    | ReadResult.err => ⟨[], none, none, some ExitKind.broke⟩
    | ReadResult.ok d =>
      if d = [] then ⟨[], none, none, some ExitKind.broke⟩
      else if e.masterWriteRaises then ⟨[], none, none, some ExitKind.broke⟩
      else stepMaster e [Action.writeMaster d] (some d)
  else stepMaster e [] none

/-- The proxy loop over a trace of environment events: the actions performed
and how the loop ended.  `ExitKind.fuel` means the trace was exhausted while
the loop was still prepared to run another iteration. -/
def runLoop : List Event → List Action × ExitKind
  | [] => ([], ExitKind.fuel)
  | e :: es =>
    match (step e).exit with
    | some k => ((step e).acts, k)
    | none => ((step e).acts ++ (runLoop es).1, (runLoop es).2)

/-- The positive stdin chunks the loop actually forwards to the master, in
order, along a trace of events. -/
def stdinChunksRun : List Event → List (List Nat)
  | [] => []
  | e :: es =>
    match (step e).exit with
    | some _ => ((step e).stdinChunk).toList
    | none => ((step e).stdinChunk).toList ++ stdinChunksRun es

/-- The positive master chunks the loop actually forwards to stdout, in order,
along a trace of events. -/
def masterChunksRun : List Event → List (List Nat)
  | [] => []
  | e :: es =>
    match (step e).exit with
    | some _ => ((step e).masterChunk).toList
    | none => ((step e).masterChunk).toList ++ masterChunksRun es

/-- Bytes an action trace writes to the terminal master descriptor. -/
def masterBytes : List Action → List Nat
  | [] => []
  | Action.writeMaster d :: as => d ++ masterBytes as
  | _ :: as => masterBytes as

/-- Bytes an action trace writes to the bridge's stdout. -/
def stdoutBytes : List Action → List Nat
  | [] => []
  | Action.writeStdout d :: as => d ++ stdoutBytes as
  | _ :: as => stdoutBytes as

/-- Every `writeStdout` in the trace is immediately followed by a
`flushStdout` (pty-bridge.py lines 62-63). -/
def flushImmediateB : List Action → Bool
  | [] => true
  | Action.writeStdout _ :: as =>
    decide (as.head? = some Action.flushStdout) && flushImmediateB as
  | _ :: as => flushImmediateB as

/-- Models the semantics of `subprocess.Popen.terminate` as relied on by the
cleanup block: `send_signal` first checks whether the child has already been
reaped (its `returncode` is set) and in that case returns silently, so
`terminate` on an already-exited child is a no-op and does not raise. -/
def terminateRaisesAfter (k : ExitKind) : Bool :=
  match k with
  | _ => false

/-- The `finally` block (pty-bridge.py lines 69-74): `p.terminate()` then
`p.wait()`, inside a `try/except Exception: pass`, so if `terminate` raised,
`wait` would be skipped and the exception swallowed. -/
def runFinally (termRaises : Bool) : List Action :=
  if termRaises then [Action.termCall] else [Action.termCall, Action.waitCall]

/-- The whole of `main` after a successful PTY allocation and spawn: run the
proxy loop; an exception escaping the loop is caught by the outer handler
which writes a diagnostic to stderr (line 68); the cleanup block always runs. -/
def runMain (es : List Event) : List Action :=
  (runLoop es).1
    ++ (if (runLoop es).2 = ExitKind.exc then [Action.writeStderr] else [])
    ++ runFinally (terminateRaisesAfter (runLoop es).2)

/-- Whether the loop reached the spec's `TERMINATED` state (i.e. actually
exited, rather than running out of supplied events). -/
def isTerminated (k : ExitKind) : Bool :=
  match k with
  | ExitKind.fuel => false
  | _ => true

/-- Startup outcome of `main` before the proxy loop: `pty.openpty()` raising,
`subprocess.Popen` raising, or both succeeding. -/
inductive Startup where
  | allocFail
  | spawnFail
  | ok
deriving DecidableEq, Repr

/-- Observable outcome of the whole bridge process. -/
structure MainObs where
  outBytes : List Nat
  stderrDiag : Bool
  exitCode : Nat
  acts : List Action
deriving DecidableEq, Repr

/-- The whole bridge process (pty-bridge.py lines 18-78).  On an allocation or
spawn failure the `except` handler writes the diagnostic to stderr; in the
`finally` block `p` is unbound, so `p.terminate()` raises `NameError`, which
the inner `except Exception: pass` swallows — no terminate/wait calls happen.
`main` then returns normally and the interpreter exits with status 0; no
`sys.exit` call exists anywhere in the script. -/
def mainFull (st : Startup) (es : List Event) : MainObs :=
  match st with
  | Startup.allocFail => ⟨[], true, 0, []⟩
  | Startup.spawnFail => ⟨[], true, 0, []⟩
  | Startup.ok =>
    ⟨stdoutBytes (runMain es), decide ((runLoop es).2 = ExitKind.exc), 0, runMain es⟩

/-- Boolean prefix test on character lists. -/
def charStartsWith : List Char → List Char → Bool
  | [], _ => true
  | _ :: _, [] => false
  | a :: as, b :: bs => a == b && charStartsWith as bs

/-- Boolean contiguous-substring test: does `needle` occur in `hay`? -/
def charSub (needle : List Char) : List Char → Bool
  | [] => needle.isEmpty
  | b :: bs => charStartsWith needle (b :: bs) || charSub needle bs

/-- Python's substring containment `needle in hay` on `str`. -/
def pyStrIn (needle hay : String) : Bool :=
  charSub needle.data hay.data

/-- The empty-argv fallback (pty-bridge.py lines 24-25):
`cmd = [os.environ.get("SHELL", "/bin/sh")]`. -/
def resolveCmd (envShell : Option String) (argv : List String) : List String :=
  if argv = [] then [envShell.getD "/bin/sh"] else argv

/-- The shell launch policy (pty-bridge.py lines 23-30): default the empty
command to the environment shell, then append `"-i"` when the first token
contains `"bash"` or `"zsh"` as a substring and no `"-i"` token is present. -/
def finalizeCmd (envShell : Option String) (argv : List String) : List String :=
  if (pyStrIn "bash" ((resolveCmd envShell argv).headD "")
      || pyStrIn "zsh" ((resolveCmd envShell argv).headD ""))
      && !(decide ("-i" ∈ resolveCmd envShell argv)) then
    resolveCmd envShell argv ++ ["-i"]
  else resolveCmd envShell argv

/-- The basename of a path as the spec's wording uses it (the part after the
last slash), stated independently of the code's substring test so the two can
be compared. -/
def basename (p : String) : String :=
  String.mk ((p.data.reverse.takeWhile (fun c => c != '/')).reverse)

end PtyBridge

namespace Solver

/-- Response object built by `process_request` (solver.py lines 248-275),
minus the `id` key, which `run_persistent` adds afterwards.  A field of value
`none` means the key is absent from the JSON object; `latexKey` is doubly
optional because `get_latex_output` may itself return `None` while the key is
still set. -/
structure Response where
  result : Option String := none
  latexKey : Option (Option String) := none
  steps : Option (List String) := none
  plot : Option String := none
  error : Option String := none
deriving DecidableEq, Repr

/-- Abstract model of the SymPy-backed evaluation machinery.  `freshNs` is the
namespace `create_namespace` returns (deterministic: the same imports, symbols
and function table every time; namespaces are abstract handles); `eval` takes
the namespace handle and may return a mutated one; `stepsFor`/`plotFor` run on
the namespace left by the main evaluation.  `available` models whether the
`import sympy` inside `create_namespace` succeeds. -/
structure SymEngine where
  available : Bool
  freshNs : Nat
  eval : Nat → String → Except String String × Nat
  latexOf : String → Option String
  stepsFor : Nat → String → List String
  plotFor : Nat → String → Option String

/-- `process_request` (solver.py lines 248-275): build a fresh namespace via
`create_namespace`, evaluate, then optionally attach latex / steps / plot.
On any evaluation exception the response is `{'error': str(e)}`. -/
def process_request (eng : SymEngine) (expression output_format : String)
    (want_steps want_plot : Bool) : Response :=
  if eng.available = false then
    { error := some "sympy is not installed. Run: pip3 install sympy" }
  else
    match eng.eval eng.freshNs expression with
    | (Except.error e, _) => { error := some e }
    | (Except.ok r, ns1) =>
      { result := some r
        latexKey :=
          if output_format = "latex" ∨ output_format = "all" then
            some (eng.latexOf r)
          else none
        steps := if want_steps then some (eng.stepsFor ns1 expression) else none
        plot := if want_plot then eng.plotFor ns1 expression else none }

/-- One line of stdin as `run_persistent` sees it after `line.strip()` and
`json.loads`: blank (skipped), undecodable JSON (skipped), or a JSON object
with the fields the loop reads via `request.get` (missing fields already
replaced by the loop's defaults: id 0, expression "", format "text", steps
and plot false).  JSON lines holding non-object values, on which the Python
would crash with an uncaught `AttributeError`, are outside the model. -/
inductive Line where
  | blank
  | badJson
  | obj (command : Option String) (id : Nat) (expression : String)
      (format : String) (steps plot : Bool)
deriving DecidableEq, Repr

/-- One message on the solver's stdout: the ready handshake or a response
object with its `id` key. -/
inductive OutMsg where
  | ready
  | resp (id : Nat) (r : Response)
deriving DecidableEq, Repr

/-- Does this line hit the `if request.get('command') == 'exit': break` test
(solver.py line 331)? -/
def stopsLoop : Line → Bool
  | Line.obj cmd _ _ _ _ _ => decide (cmd = some "exit")
  | _ => false

/-- Lines that produce exactly one response: a decodable JSON object that is
not the exit sentinel. -/
def respondable : Line → Bool
  | Line.obj cmd _ _ _ _ _ => !(decide (cmd = some "exit"))
  | _ => false

/-- The response `run_persistent` prints for a valid non-exit request line:
the empty-expression guard (solver.py lines 340-342) or `process_request`. -/
def lineResponse (eng : SymEngine) (expression output_format : String)
    (want_steps want_plot : Bool) : Response :=
  if expression = "" then { error := some "Empty expression" }
  else process_request eng expression output_format want_steps want_plot

/-- The request loop of `run_persistent` (solver.py lines 320-346). -/
def handleLines (eng : SymEngine) : List Line → List OutMsg
  | [] => []
  | Line.blank :: ls => handleLines eng ls
  | Line.badJson :: ls => handleLines eng ls
  | Line.obj cmd id expr fmt st pl :: ls =>
    if cmd = some "exit" then []
    else OutMsg.resp id (lineResponse eng expr fmt st pl) :: handleLines eng ls

/-- `run_persistent` (solver.py lines 315-346): the ready handshake followed
by the request loop. -/
def run_persistent (eng : SymEngine) (ls : List Line) : List OutMsg :=
  OutMsg.ready :: handleLines eng ls

/-- A concrete engine used to evaluate the model on closed inputs. -/
def engDemo : SymEngine where
  available := true
  freshNs := 0
  eval := fun ns e => if e = "boom" then (Except.error "boom failed", ns) else (Except.ok e, ns)
  latexOf := fun r => some r
  stepsFor := fun _ e => [e]
  plotFor := fun _ _ => none

end Solver

namespace PtyBridge

/-- Event: only the bridge's stdin is ready and delivers chunk `d`. -/
def evInput (d : List Nat) : Event :=
  ⟨true, false, true, false, ReadResult.ok d, ReadResult.ok [], false, false⟩

/-- Event: only the master is ready and delivers chunk `d`. -/
def evEcho (d : List Nat) : Event :=
  ⟨true, false, false, true, ReadResult.ok [], ReadResult.ok d, false, false⟩

/-- Event: both descriptors are ready, stdin delivers `d1`, master `d2`. -/
def evBoth (d1 d2 : List Nat) : Event :=
  ⟨true, false, true, true, ReadResult.ok d1, ReadResult.ok d2, false, false⟩

/-- Event: stdin reports end of stream while the master is also ready with
pending data. -/
def evEOF : Event :=
  ⟨true, false, true, true, ReadResult.ok [], ReadResult.ok [7], false, false⟩

/-- Event: `p.poll()` reports the child has exited. -/
def evDead : Event :=
  ⟨false, false, false, false, ReadResult.ok [], ReadResult.ok [], false, false⟩

end PtyBridge

namespace PtyBridge

theorem masterBytes_append (a b : List Action) :
    masterBytes (a ++ b) = masterBytes a ++ masterBytes b := by
  induction a with
  | nil => rfl
  | cons x as ih => cases x <;> simp [masterBytes, ih]

theorem stdoutBytes_append (a b : List Action) :
    stdoutBytes (a ++ b) = stdoutBytes a ++ stdoutBytes b := by
  induction a with
  | nil => rfl
  | cons x as ih => cases x <;> simp [stdoutBytes, ih]

theorem step_masterBytes (e : Event) (rest : List Action) :
    masterBytes ((step e).acts ++ rest)
      = ((step e).stdinChunk).getD [] ++ masterBytes rest := by
  unfold step stepMaster
  repeat' split
  all_goals simp [masterBytes]

theorem step_stdoutBytes (e : Event) (rest : List Action) :
    stdoutBytes ((step e).acts ++ rest)
      = ((step e).masterChunk).getD [] ++ stdoutBytes rest := by
  unfold step stepMaster
  repeat' split
  all_goals simp [stdoutBytes]

theorem step_flush (e : Event) (rest : List Action) :
    flushImmediateB ((step e).acts ++ rest) = flushImmediateB rest := by
  unfold step stepMaster
  repeat' split
  all_goals simp [flushImmediateB]

theorem step_count_term (e : Event) (rest : List Action) :
    List.count Action.termCall ((step e).acts ++ rest)
      = List.count Action.termCall rest := by
  unfold step stepMaster
  repeat' split
  all_goals simp [List.count_append]

theorem step_count_wait (e : Event) (rest : List Action) :
    List.count Action.waitCall ((step e).acts ++ rest)
      = List.count Action.waitCall rest := by
  unfold step stepMaster
  repeat' split
  all_goals simp [List.count_append]

theorem step_no_fuel (e : Event) : (step e).exit ≠ some ExitKind.fuel := by
  unfold step stepMaster
  repeat' split
  all_goals simp

theorem opt_toList_flatten (o : Option (List Nat)) :
    (o.toList).flatten = o.getD [] := by
  cases o <;> simp

theorem loop_masterBytes (es : List Event) :
    masterBytes (runLoop es).1 = (stdinChunksRun es).flatten := by
  induction es with
  | nil => rfl
  | cons e es ih =>
    rcases hk : (step e).exit with _ | k
    · have h1 := step_masterBytes e (runLoop es).1
      simp [runLoop, stdinChunksRun, hk] at h1 ⊢
      rw [h1, ih, ← opt_toList_flatten]
    · have h1 := step_masterBytes e []
      simp [runLoop, stdinChunksRun, hk] at h1 ⊢
      rw [h1, ← opt_toList_flatten]
      simp [masterBytes]

theorem loop_stdoutBytes (es : List Event) :
    stdoutBytes (runLoop es).1 = (masterChunksRun es).flatten := by
  induction es with
  | nil => rfl
  | cons e es ih =>
    rcases hk : (step e).exit with _ | k
    · have h1 := step_stdoutBytes e (runLoop es).1
      simp [runLoop, masterChunksRun, hk] at h1 ⊢
      rw [h1, ih, ← opt_toList_flatten]
    · have h1 := step_stdoutBytes e []
      simp [runLoop, masterChunksRun, hk] at h1 ⊢
      rw [h1, ← opt_toList_flatten]
      simp [stdoutBytes]

theorem loop_flush (es : List Event) :
    flushImmediateB (runLoop es).1 = true := by
  induction es with
  | nil => rfl
  | cons e es ih =>
    rcases hk : (step e).exit with _ | k
    · have h1 := step_flush e (runLoop es).1
      simp [runLoop, hk] at h1 ⊢
      rw [h1, ih]
    · have h1 := step_flush e []
      simp [runLoop, hk, flushImmediateB] at h1 ⊢
      rw [h1]

theorem loop_count_term (es : List Event) :
    List.count Action.termCall (runLoop es).1 = 0 := by
  induction es with
  | nil => rfl
  | cons e es ih =>
    rcases hk : (step e).exit with _ | k
    · show List.count Action.termCall (runLoop (e :: es)).1 = 0
      simp only [runLoop, hk]
      rw [List.count_append, ih]
      have h2 := step_count_term e []
      simpa using h2
    · show List.count Action.termCall (runLoop (e :: es)).1 = 0
      simp only [runLoop, hk]
      have h2 := step_count_term e []
      simpa using h2

theorem loop_count_wait (es : List Event) :
    List.count Action.waitCall (runLoop es).1 = 0 := by
  induction es with
  | nil => rfl
  | cons e es ih =>
    rcases hk : (step e).exit with _ | k
    · show List.count Action.waitCall (runLoop (e :: es)).1 = 0
      simp only [runLoop, hk]
      rw [List.count_append, ih]
      have h2 := step_count_wait e []
      simpa using h2
    · show List.count Action.waitCall (runLoop (e :: es)).1 = 0
      simp only [runLoop, hk]
      have h2 := step_count_wait e []
      simpa using h2

theorem runLoop_append (pre rest : List Event)
    (h : (runLoop pre).2 = ExitKind.fuel) :
    runLoop (pre ++ rest)
      = ((runLoop pre).1 ++ (runLoop rest).1, (runLoop rest).2) := by
  induction pre with
  | nil => simp [runLoop]
  | cons e pre ih =>
    rcases hk : (step e).exit with _ | k
    · simp [runLoop, hk] at h ⊢
      rw [ih h]
      simp
    · simp [runLoop, hk] at h
      subst h
      exact absurd hk (step_no_fuel e)

theorem resolveCmd_ne_nil (envShell : Option String) (argv : List String) :
    resolveCmd envShell argv ≠ [] := by
  unfold resolveCmd
  split <;> simp_all

theorem resolveCmd_idem (envShell : Option String) (cmd : List String)
    (h : cmd ≠ []) : resolveCmd envShell cmd = cmd := by
  simp [resolveCmd, h]

/-- C4 fails on the code: the interactive-flag test is a substring test
(`"bash" in cmd[0]`), not a basename-allowlist test.  The single token
`"abash"` has basename `"abash"`, which is neither `bash` nor `zsh`, yet
the launch policy appends `"-i"` instead of leaving the tokens unchanged. -/
theorem interactive_flag_counterexample :
    finalizeCmd none ["abash"] = ["abash", "-i"]
    ∧ basename "abash" ≠ "bash"
    ∧ basename "abash" ≠ "zsh"
    ∧ ¬ finalizeCmd none ["abash"] = ["abash"] := by
  decide

/-- C4 amended: the finalization appends the `"-i"` token if and only if the
first token contains `"bash"` or `"zsh"` as a substring (not: has an
allowlisted basename) and no `"-i"` token is already present; in all other
cases the token sequence is returned unchanged.  In particular `["bash"]`
becomes `["bash", "-i"]` and `["ls", "-la"]` is unchanged. -/
theorem interactive_flag_amended :
    (∀ envShell argv, argv ≠ [] →
      (finalizeCmd envShell argv = argv
        ∨ finalizeCmd envShell argv = argv ++ ["-i"])
      ∧ (finalizeCmd envShell argv = argv ++ ["-i"] ↔
          ((pyStrIn "bash" (argv.headD "") = true
            ∨ pyStrIn "zsh" (argv.headD "") = true)
          ∧ "-i" ∉ argv)))
    ∧ finalizeCmd none ["bash"] = ["bash", "-i"]
    ∧ finalizeCmd none ["bash", "-i"] = ["bash", "-i"]
    ∧ finalizeCmd none ["ls", "-la"] = ["ls", "-la"] := by
  refine ⟨?_, by decide, by decide, by decide⟩
  intro envShell argv h
  have hcmd : resolveCmd envShell argv = argv := resolveCmd_idem _ _ h
  unfold finalizeCmd
  rw [hcmd]
  by_cases hc : ((pyStrIn "bash" (argv.headD "") || pyStrIn "zsh" (argv.headD ""))
      && !(decide ("-i" ∈ argv))) = true
  · rw [if_pos hc]
    have hc2 : (pyStrIn "bash" (argv.headD "") = true
        ∨ pyStrIn "zsh" (argv.headD "") = true) ∧ "-i" ∉ argv := by
      simpa [Bool.and_eq_true, Bool.or_eq_true, Bool.not_eq_true',
        decide_eq_false_iff_not] using hc
    exact ⟨Or.inr rfl, ⟨fun _ => hc2, fun _ => rfl⟩⟩
  · rw [if_neg hc]
    refine ⟨Or.inl rfl, ⟨?_, ?_⟩⟩
    · intro heq
      exfalso
      have := congrArg List.length heq
      simp at this
    · rintro ⟨h1, h2⟩
      exfalso
      apply hc
      simp only [Bool.and_eq_true, Bool.or_eq_true, Bool.not_eq_true',
        decide_eq_false_iff_not]
      exact ⟨h1, h2⟩

/-- C4 witness: the amended characterization evaluated at `["zsh"]`. -/
theorem interactive_flag_amended_witness :
    (finalizeCmd none ["zsh"] = ["zsh"]
      ∨ finalizeCmd none ["zsh"] = ["zsh"] ++ ["-i"])
    ∧ (finalizeCmd none ["zsh"] = ["zsh"] ++ ["-i"] ↔
        ((pyStrIn "bash" ((["zsh"] : List String).headD "") = true
          ∨ pyStrIn "zsh" ((["zsh"] : List String).headD "") = true)
        ∧ "-i" ∉ (["zsh"] : List String))) :=
  interactive_flag_amended.1 none ["zsh"] (by decide)

/-- C8: the launch policy is a pure function of the token sequence and the
environment shell, and it is idempotent — applying the finalization twice
(including the empty-sequence defaulting step) gives the same tokens as
applying it once. -/
theorem finalize_idempotent (envShell : Option String) (argv : List String) :
    finalizeCmd envShell (finalizeCmd envShell argv) = finalizeCmd envShell argv := by
  have hne := resolveCmd_ne_nil envShell argv
  by_cases hc : ((pyStrIn "bash" ((resolveCmd envShell argv).headD "")
      || pyStrIn "zsh" ((resolveCmd envShell argv).headD ""))
      && !(decide ("-i" ∈ resolveCmd envShell argv))) = true
  · have h1 : finalizeCmd envShell argv = resolveCmd envShell argv ++ ["-i"] := by
      unfold finalizeCmd
      rw [if_pos hc]
    rw [h1]
    unfold finalizeCmd
    have h2 : resolveCmd envShell (resolveCmd envShell argv ++ ["-i"])
        = resolveCmd envShell argv ++ ["-i"] :=
      resolveCmd_idem _ _ (by simp)
    rw [h2]
    rw [if_neg ?hneg]
    case hneg =>
      intro hcontra
      have hmem : ("-i" : String) ∈ resolveCmd envShell argv ++ ["-i"] := by simp
      simp only [Bool.and_eq_true, Bool.not_eq_true',
        decide_eq_false_iff_not] at hcontra
      exact hcontra.2 hmem
  · have h1 : finalizeCmd envShell argv = resolveCmd envShell argv := by
      unfold finalizeCmd
      rw [if_neg hc]
    rw [h1]
    unfold finalizeCmd
    rw [resolveCmd_idem _ _ hne]
    rw [if_neg hc]

/-- C5: if the child process is no longer alive, the loop exits to
`TERMINATED` immediately, consuming no further input; the liveness check is
re-evaluated on every iteration (whenever the loop is still running after a
prefix of events, one dead-child poll ends it); and the readiness poll is
bounded by the 0.1 s (= 100 ms) `select` timeout, so the loop never blocks
indefinitely waiting for I/O. -/
theorem child_exit_terminates :
    (∀ e es, e.childAlive = false →
      runLoop (e :: es) = ([], ExitKind.childDead)
      ∧ isTerminated ExitKind.childDead = true)
    ∧ (∀ pre e post, (runLoop pre).2 = ExitKind.fuel → e.childAlive = false →
      runLoop (pre ++ e :: post) = ((runLoop pre).1, ExitKind.childDead))
    ∧ selectTimeout = 1 / 10 ∧ selectTimeout * 1000 = 100 := by
  have hbase : ∀ (e : Event) (es : List Event), e.childAlive = false →
      runLoop (e :: es) = ([], ExitKind.childDead) := by
    intro e es h
    have hstep : step e = ⟨[], none, none, some ExitKind.childDead⟩ := by
      unfold step
      rw [if_pos h]
    simp [runLoop, hstep]
  refine ⟨fun e es h => ⟨hbase e es h, rfl⟩, ?_, by norm_num [selectTimeout], ?_⟩
  · intro pre e post hfuel h
    rw [runLoop_append pre (e :: post) hfuel, hbase e post h]
    simp
  · norm_num [selectTimeout]

/-- C5 witness: after one quiet iteration the loop is still running, and a
dead-child poll then ends it at once, with pending events left unconsumed. -/
theorem child_exit_terminates_witness :
    runLoop [evDead, evInput [1]] = ([], ExitKind.childDead)
    ∧ isTerminated ExitKind.childDead = true
    ∧ runLoop ([evInput [9]] ++ evDead :: [evInput [1]])
      = ((runLoop [evInput [9]]).1, ExitKind.childDead) :=
  ⟨(child_exit_terminates.1 evDead [evInput [1]] (by decide)).1,
   (child_exit_terminates.1 evDead [evInput [1]] (by decide)).2,
   child_exit_terminates.2.1 [evInput [9]] evDead [evInput [1]] (by decide) (by decide)⟩

/-- C6: a zero-length read from the bridge's stdin breaks out of the loop
immediately: the iteration performs no action at all (even when the master
descriptor was reported ready in the same iteration), no later event is
consumed, and the only actions `main` performs afterwards are the cleanup
terminate/wait calls — no byte is written to the master or to stdout after
the EOF. -/
theorem stdin_eof_stops_writes :
    ∀ pre e post, (runLoop pre).2 = ExitKind.fuel →
      e.childAlive = true → e.selectRaises = false →
      e.stdinReady = true → e.stdinRead = ReadResult.ok [] →
      runLoop (pre ++ e :: post) = ((runLoop pre).1, ExitKind.broke)
      ∧ runMain (pre ++ e :: post)
        = (runLoop pre).1 ++ [Action.termCall, Action.waitCall]
      ∧ isTerminated ExitKind.broke = true := by
  intro pre e post hfuel hca hsr hsi hread
  have hstep : step e = ⟨[], none, none, some ExitKind.broke⟩ := by
    unfold step
    rw [if_neg (by simp [hca]), if_neg (by simp [hsr]), if_pos hsi, hread]
    simp
  have hloop : runLoop (pre ++ e :: post) = ((runLoop pre).1, ExitKind.broke) := by
    rw [runLoop_append pre (e :: post) hfuel]
    simp [runLoop, hstep]
  refine ⟨hloop, ?_, rfl⟩
  unfold runMain
  rw [hloop]
  simp [runFinally, terminateRaisesAfter]

/-- C6 witness: stdin EOF arrives while the master is ready with pending
data and another master event is queued; nothing is written. -/
theorem stdin_eof_stops_writes_witness :
    runLoop ([] ++ evEOF :: [evEcho [9]]) = ((runLoop []).1, ExitKind.broke)
    ∧ runMain ([] ++ evEOF :: [evEcho [9]])
      = (runLoop []).1 ++ [Action.termCall, Action.waitCall]
    ∧ isTerminated ExitKind.broke = true :=
  stdin_eof_stops_writes [] evEOF [evEcho [9]] (by decide) (by decide)
    (by decide) (by decide) (by decide)

/-- C7: when both the bridge's stdin and the master descriptor are ready in
the same iteration and both reads return data, both directions are serviced
in that iteration — the stdin chunk goes to the master and the master chunk
goes to stdout (with a flush) — and the loop then continues with the rest of
the trace, so neither direction is ever starved. -/
theorem both_directions_serviced :
    ∀ e es d1 d2, e.childAlive = true → e.selectRaises = false →
      e.stdinReady = true → e.stdinRead = ReadResult.ok d1 → d1 ≠ [] →
      e.masterWriteRaises = false →
      e.masterReady = true → e.masterRead = ReadResult.ok d2 → d2 ≠ [] →
      e.stdoutWriteRaises = false →
      runLoop (e :: es)
        = (Action.writeMaster d1 :: Action.writeStdout d2 :: Action.flushStdout
            :: (runLoop es).1, (runLoop es).2) := by
  intro e es d1 d2 hca hsr hsi hread1 hd1 hmw hmr hread2 hd2 hsw
  have hstep : step e = ⟨[Action.writeMaster d1, Action.writeStdout d2,
      Action.flushStdout], some d1, some d2, none⟩ := by
    unfold step stepMaster
    rw [if_neg (by simp [hca]), if_neg (by simp [hsr]), if_pos hsi, hread1]
    simp [hd1, hmw, hmr, hread2, hd2, hsw]
  simp [runLoop, hstep]

/-- C7 witness: both directions ready with one byte each; both are serviced
in that iteration, before the loop sees the child exit. -/
theorem both_directions_serviced_witness :
    runLoop (evBoth [1] [2] :: [evDead])
      = (Action.writeMaster [1] :: Action.writeStdout [2] :: Action.flushStdout
          :: (runLoop [evDead]).1, (runLoop [evDead]).2) :=
  both_directions_serviced (evBoth [1] [2]) [evDead] [1] [2] (by decide)
    (by decide) (by decide) (by decide) (by decide) (by decide) (by decide)
    (by decide) (by decide) (by decide)

/-- C1: while the session is running, a positive stdin read of at most 4096
bytes is written verbatim to the master as the first action of its iteration;
a positive master read of at most 4096 bytes is written verbatim to stdout
and flushed immediately; over any run, the bytes written to the master are
exactly the concatenation of the forwarded stdin chunks, the bytes written to
stdout exactly the concatenation of the forwarded master chunks, and every
stdout write is immediately followed by a flush; consequently, when the child
echoes — the master chunks carry the same byte sequence as the stdin chunks,
possibly chunked differently — the full input byte sequence appears on the
bridge's output in order. -/
theorem proxy_forwards_verbatim :
    (∀ e es d, e.childAlive = true → e.selectRaises = false →
      e.stdinReady = true → e.stdinRead = ReadResult.ok d → d ≠ [] →
      d.length ≤ CHUNK → e.masterWriteRaises = false →
      ∃ rest, (runLoop (e :: es)).1 = Action.writeMaster d :: rest)
    ∧ (∀ e es d, e.childAlive = true → e.selectRaises = false →
      e.stdinReady = false → e.masterReady = true →
      e.masterRead = ReadResult.ok d → d ≠ [] →
      d.length ≤ CHUNK → e.stdoutWriteRaises = false →
      (runLoop (e :: es)).1
        = Action.writeStdout d :: Action.flushStdout :: (runLoop es).1)
    ∧ (∀ es, masterBytes (runLoop es).1 = (stdinChunksRun es).flatten
        ∧ stdoutBytes (runLoop es).1 = (masterChunksRun es).flatten
        ∧ flushImmediateB (runLoop es).1 = true)
    ∧ (∀ es, (masterChunksRun es).flatten = (stdinChunksRun es).flatten →
      stdoutBytes (runLoop es).1 = (stdinChunksRun es).flatten) := by
  refine ⟨?_, ?_, ?_, ?_⟩
  · intro e es d hca hsr hsi hread hd _hlen hmw
    have hstep : ∃ tail, (step e).acts = Action.writeMaster d :: tail := by
      unfold step stepMaster
      rw [if_neg (by simp [hca]), if_neg (by simp [hsr]), if_pos hsi, hread]
      simp only [if_neg hd, hmw]
      repeat' split
      all_goals simp_all
    rcases hstep with ⟨tail, htail⟩
    rcases hk : (step e).exit with _ | k
    · exact ⟨tail ++ (runLoop es).1, by simp [runLoop, hk, htail]⟩
    · exact ⟨tail, by simp [runLoop, hk, htail]⟩
  · intro e es d hca hsr hsi hmr hread hd _hlen hsw
    have hstep : step e = ⟨[Action.writeStdout d, Action.flushStdout],
        none, some d, none⟩ := by
      unfold step stepMaster
      rw [if_neg (by simp [hca]), if_neg (by simp [hsr]), if_neg (by simp [hsi]),
        if_pos hmr, hread]
      simp [hd, hsw]
    simp [runLoop, hstep]
  · exact fun es => ⟨loop_masterBytes es, loop_stdoutBytes es, loop_flush es⟩
  · intro es hecho
    rw [loop_stdoutBytes es, hecho]

/-- C1 witness: the environment feeds two bytes on stdin, the child echoes
them back in one chunk, then stdin closes; the echoed bytes appear verbatim
on the bridge's output. -/
theorem proxy_forwards_verbatim_witness :
    (masterChunksRun [evInput [1, 2], evEcho [1, 2], evEOF]).flatten
      = (stdinChunksRun [evInput [1, 2], evEcho [1, 2], evEOF]).flatten
    ∧ stdoutBytes (runLoop [evInput [1, 2], evEcho [1, 2], evEOF]).1
      = (stdinChunksRun [evInput [1, 2], evEcho [1, 2], evEOF]).flatten
    ∧ (∃ rest, (runLoop (evInput [1, 2] :: [evEcho [1, 2], evEOF])).1
        = Action.writeMaster [1, 2] :: rest) :=
  ⟨by decide,
   proxy_forwards_verbatim.2.2.2 [evInput [1, 2], evEcho [1, 2], evEOF] (by decide),
   proxy_forwards_verbatim.1 (evInput [1, 2]) [evEcho [1, 2], evEOF] [1, 2]
     (by decide) (by decide) (by decide) (by decide) (by decide) (by decide)
     (by decide)⟩

/-- C2: on every exit path of the proxy loop — child exit, stdin EOF,
terminal-side close, OS read/write error, or an unexpected exception — the
cleanup block calls `terminate` and `wait` exactly once each, and
`terminate` on an already-exited child is a no-op rather than an error
(`terminateRaisesAfter` is `false` for every exit kind, so `wait` is never
skipped by the surrounding `try/except`). -/
theorem cleanup_exactly_once (es : List Event)
    (h : (runLoop es).2 ≠ ExitKind.fuel) :
    List.count Action.termCall (runMain es) = 1
    ∧ List.count Action.waitCall (runMain es) = 1
    ∧ terminateRaisesAfter (runLoop es).2 = false := by
  unfold runMain runFinally terminateRaisesAfter
  refine ⟨?_, ?_, rfl⟩
  · rw [List.count_append, List.count_append, loop_count_term]
    split <;> simp
  · rw [List.count_append, List.count_append, loop_count_wait]
    split <;> simp

/-- C2 witness: a run ending in child exit cleans up exactly once. -/
theorem cleanup_exactly_once_witness :
    List.count Action.termCall (runMain [evInput [1], evDead]) = 1
    ∧ List.count Action.waitCall (runMain [evInput [1], evDead]) = 1
    ∧ terminateRaisesAfter (runLoop [evInput [1], evDead]).2 = false :=
  cleanup_exactly_once [evInput [1], evDead] (by decide)

/-- C3 is a code bug: on a fatal PTY-allocation or spawn failure the bridge
does write its diagnostic to stderr and nothing to stdout, but `main` has no
`sys.exit` call — the handler in lines 67-74 swallows everything and `main`
returns normally, so the process exits with status 0, not non-zero as the
spec requires. -/
theorem fatal_error_exits_zero :
    (mainFull Startup.allocFail []).stderrDiag = true
    ∧ (mainFull Startup.allocFail []).outBytes = []
    ∧ (mainFull Startup.allocFail []).exitCode = 0
    ∧ (mainFull Startup.spawnFail []).stderrDiag = true
    ∧ (mainFull Startup.spawnFail []).outBytes = []
    ∧ (mainFull Startup.spawnFail []).exitCode = 0 := by
  decide

end PtyBridge

namespace Solver

theorem handleLines_append (eng : SymEngine) (ls1 ls2 : List Line)
    (h : ∀ l ∈ ls1, stopsLoop l = false) :
    handleLines eng (ls1 ++ ls2) = handleLines eng ls1 ++ handleLines eng ls2 := by
  induction ls1 with
  | nil => simp [handleLines]
  | cons l ls ih =>
    have hl := h l (List.mem_cons_self l ls)
    have hrest : ∀ x ∈ ls, stopsLoop x = false :=
      fun x hx => h x (List.mem_cons_of_mem l hx)
    cases l with
    | blank => simpa [handleLines] using ih hrest
    | badJson => simpa [handleLines] using ih hrest
    | obj cmd id expr fmt st pl =>
      have hne : ¬ cmd = some "exit" := by
        simpa [stopsLoop] using hl
      simp [handleLines, hne, ih hrest]

/-- C9 fails on the code: an input line that is not decodable JSON (and
likewise a blank line) is skipped with `continue` and produces no response at
all, so the stream does not contain one response per line of input: one
undecodable line yields only the ready handshake. -/
theorem persistent_skips_unparseable :
    ¬ (run_persistent engDemo [Line.badJson]).length
      = 1 + ([Line.badJson] : List Line).length := by
  decide

/-- C9 amended: after the leading ready handshake, the solver emits exactly
one response per decodable, non-blank, non-exit request line (blank and
undecodable lines are skipped silently); when the evaluation of a request
raises, the emitted response carries that request's id and the error message
and the loop continues with the remaining lines; the exit sentinel ends the
loop immediately. -/
theorem persistent_one_response_per_request :
    (∀ eng ls, ∃ rest, run_persistent eng ls = OutMsg.ready :: rest)
    ∧ (∀ eng ls, (∀ l ∈ ls, respondable l = true) →
      (run_persistent eng ls).length = 1 + ls.length)
    ∧ (∀ eng cmd id expr fmt st pl ls m,
      eng.available = true → ¬ cmd = some "exit" → ¬ expr = "" →
      (eng.eval eng.freshNs expr).1 = Except.error m →
      handleLines eng (Line.obj cmd id expr fmt st pl :: ls)
        = OutMsg.resp id { error := some m } :: handleLines eng ls)
    ∧ (∀ eng id expr fmt st pl ls,
      handleLines eng (Line.obj (some "exit") id expr fmt st pl :: ls) = []) := by
  refine ⟨fun eng ls => ⟨handleLines eng ls, rfl⟩, ?_, ?_, ?_⟩
  · intro eng ls h
    unfold run_persistent
    simp only [List.length_cons]
    have : (handleLines eng ls).length = ls.length := by
      induction ls with
      | nil => rfl
      | cons l ls ih =>
        have hl := h l (List.mem_cons_self l ls)
        have hrest : ∀ x ∈ ls, respondable x = true :=
          fun x hx => h x (List.mem_cons_of_mem l hx)
        cases l with
        | blank => simp [respondable] at hl
        | badJson => simp [respondable] at hl
        | obj cmd id expr fmt st pl =>
          have hne : ¬ cmd = some "exit" := by
            simpa [respondable] using hl
          simp [handleLines, hne, ih hrest]
    omega
  · intro eng cmd id expr fmt st pl ls m hav hne hexpr heval
    rcases hpair : eng.eval eng.freshNs expr with ⟨r, ns1⟩
    rw [hpair] at heval
    simp only at heval
    subst heval
    simp [handleLines, hne, lineResponse, hexpr, process_request, hav, hpair]
  · intro eng id expr fmt st pl ls
    simp [handleLines]

/-- C9 witness: the amended statement evaluated on a concrete engine: a
stream of one failing request and one successful request produces the
handshake plus exactly two responses, the first an error response after
which processing continued. -/
theorem persistent_one_response_per_request_witness :
    (run_persistent engDemo
      [Line.obj none 1 "boom" "text" false false,
       Line.obj none 2 "x" "text" false false]).length
      = 1 + ([Line.obj none 1 "boom" "text" false false,
          Line.obj none 2 "x" "text" false false] : List Line).length
    ∧ handleLines engDemo
        [Line.obj none 1 "boom" "text" false false,
         Line.obj none 2 "x" "text" false false]
      = OutMsg.resp 1 { error := some "boom failed" }
        :: handleLines engDemo [Line.obj none 2 "x" "text" false false]
    ∧ handleLines engDemo
        [Line.obj (some "exit") 0 "" "text" false false, Line.blank] = [] :=
  ⟨persistent_one_response_per_request.2.1 engDemo
     [Line.obj none 1 "boom" "text" false false,
      Line.obj none 2 "x" "text" false false] (by decide),
   persistent_one_response_per_request.2.2.1 engDemo none 1 "boom" "text"
     false false [Line.obj none 2 "x" "text" false false] "boom failed"
     rfl (by decide) (by decide) rfl,
   persistent_one_response_per_request.2.2.2 engDemo 0 "" "text" false false
     [Line.blank]⟩

/-- C10: every request is evaluated in a freshly constructed namespace
(`process_request` consults only `eng.freshNs`, the deterministic result of
`create_namespace`, never a namespace carried over from earlier requests), so
the response to a request line is a function of that line's own fields alone:
appended to any two exit-free input histories, the same request line yields
the same final response, namely `lineResponse` of its fields. -/
theorem response_history_independent :
    ∀ eng ls1 ls2 cmd id expr fmt st pl,
      (∀ l ∈ ls1, stopsLoop l = false) → (∀ l ∈ ls2, stopsLoop l = false) →
      ¬ cmd = some "exit" →
      (run_persistent eng (ls1 ++ [Line.obj cmd id expr fmt st pl])).getLast?
        = some (OutMsg.resp id (lineResponse eng expr fmt st pl))
      ∧ (run_persistent eng (ls1 ++ [Line.obj cmd id expr fmt st pl])).getLast?
        = (run_persistent eng (ls2 ++ [Line.obj cmd id expr fmt st pl])).getLast? := by
  have key : ∀ (eng : SymEngine) (ls : List Line) (cmd : Option String)
      (id : Nat) (expr fmt : String) (st pl : Bool),
      (∀ l ∈ ls, stopsLoop l = false) → ¬ cmd = some "exit" →
      (run_persistent eng (ls ++ [Line.obj cmd id expr fmt st pl])).getLast?
        = some (OutMsg.resp id (lineResponse eng expr fmt st pl)) := by
    intro eng ls cmd id expr fmt st pl h hne
    unfold run_persistent
    rw [handleLines_append eng ls [Line.obj cmd id expr fmt st pl] h]
    have hone : handleLines eng [Line.obj cmd id expr fmt st pl]
        = [OutMsg.resp id (lineResponse eng expr fmt st pl)] := by
      simp [handleLines, hne]
    rw [hone, ← List.cons_append, List.getLast?_append]
    rfl
  intro eng ls1 ls2 cmd id expr fmt st pl h1 h2 hne
  exact ⟨key eng ls1 cmd id expr fmt st pl h1 hne,
    (key eng ls1 cmd id expr fmt st pl h1 hne).trans
      (key eng ls2 cmd id expr fmt st pl h2 hne).symm⟩

/-- C10 witness: the same request after two different histories (one
containing an error-producing request and a blank line, the other empty)
gets the identical response. -/
theorem response_history_independent_witness :
    (run_persistent engDemo
      ([Line.blank, Line.obj none 5 "boom" "text" false false]
        ++ [Line.obj none 1 "x" "text" false false])).getLast?
      = some (OutMsg.resp 1 (lineResponse engDemo "x" "text" false false))
    ∧ (run_persistent engDemo
      ([Line.blank, Line.obj none 5 "boom" "text" false false]
        ++ [Line.obj none 1 "x" "text" false false])).getLast?
      = (run_persistent engDemo
        ([] ++ [Line.obj none 1 "x" "text" false false])).getLast? :=
  response_history_independent engDemo
    [Line.blank, Line.obj none 5 "boom" "text" false false] []
    none 1 "x" "text" false false (by decide) (by decide) (by decide)

end Solver

end Oboto
